import Mathlib

/-!
Verification of the asynchronous job-processing and coordination layer of the
Lintelligence code-review service (a NestJS/Bull/Redis system).

The TypeScript services are shallowly embedded as pure Lean functions:
- Redis key/value state (locks, rate counters) becomes an association list
  from string keys to values, with set/get/del translated from the Redis
  commands the source issues (`SET ... PX ttl NX`, `DEL`, `INCR`, `EXPIRE`).
  Redis deletes a key whose expiry has passed, so "the key exists" is modelled
  as "the stored expiry is still in the future at the current time".
- Time is an explicit `Nat` parameter (milliseconds for locks and job
  durations, seconds for the rate-limiter window, matching each call site's
  unit).
- Fallible external calls (GitHub diff fetch, OpenAI analysis, comment
  posting) are `Except` values supplied as parameters; database writes are
  modelled as infallible state updates.
-/

namespace Lintelligence

/-! ### Association-list model of the Redis keyspace -/

/-- Look a key up in a string-keyed association list (first match wins). -/
def alGet {α : Type} (s : List (String × α)) (k : String) : Option α :=
  (s.find? (fun p => p.1 == k)).map (fun p => p.2)

/-- Store a value under a key, replacing any previous binding (Redis `SET`). -/
def alSet {α : Type} (s : List (String × α)) (k : String) (v : α) :
    List (String × α) :=
  (k, v) :: s.filter (fun p => !(p.1 == k))

/-- Delete a key (Redis `DEL`); a no-op when the key is absent. -/
def alDel {α : Type} (s : List (String × α)) (k : String) : List (String × α) :=
  s.filter (fun p => !(p.1 == k))

/-! ### ConcurrencyManagerService — distributed lock
(src/modules/queue/concurrency-manager.service.ts)

A lock is the Redis key `lock:${resource}` holding a value whose only
relevant attribute here is its absolute expiry time (the stored string value
`Date.now().toString()` is never read back by the service). -/

/-- Lock store: redis key (already carrying the `lock:` prefix) ↦ absolute
expiry time in ms. -/
abbrev LockState := List (String × Nat)

/-- Whether the Redis key `k` currently exists: a stored binding whose expiry
has not yet passed (`PX` expiry deletes the key once `now` reaches it). -/
def lockExists (s : LockState) (now : Nat) (k : String) : Bool :=
  match alGet s k with
  | some expiry => decide (now < expiry)
  | none => false

/-- `acquireLock(resource, ttl)`: `SET lock:${resource} value PX ttl NX` —
succeeds (returns `true`) exactly when the key does not currently exist, in
which case the key is written with expiry `now + ttl`; otherwise returns
`false` and leaves the store unchanged. Source default `ttl = 30000`. -/
def acquireLock (s : LockState) (now : Nat) (resource : String) (ttl : Nat) :
    Bool × LockState :=
  let lockKey := "lock:" ++ resource
  if lockExists s now lockKey then (false, s)
  else (true, alSet s lockKey (now + ttl))

/-- `releaseLock(resource)`: `DEL lock:${resource}` — unconditional delete. -/
def releaseLock (s : LockState) (resource : String) : LockState :=
  alDel s ("lock:" ++ resource)

/-- One client-visible operation on the lock store, used to characterise the
reachable states. -/
inductive LockOp where
  | acquire (now : Nat) (resource : String) (ttl : Nat)
  | release (resource : String)

def lockStep (s : LockState) : LockOp → LockState
  | .acquire now r ttl => (acquireLock s now r ttl).2
  | .release r => releaseLock s r

/-- The lock store reached by running a sequence of operations from empty. -/
def runLockOps (ops : List LockOp) : LockState :=
  ops.foldl lockStep []

/-- Number of bindings a store holds for one key. -/
def lockKeyCount (s : LockState) (k : String) : Nat :=
  s.countP (fun p => p.1 == k)

/-! ### ConcurrencyManagerService — rate limiter -/

/-- One rate counter: the Redis value of `rate_limit:${identifier}` plus its
expiry, `none` while no TTL has been attached (`INCR` creates keys without
TTL; the subsequent `EXPIRE` attaches one). Expiry is in the same time unit
as `now` (the source passes `window` in seconds). -/
structure RateEntry where
  count : Nat
  expiry : Option Nat
deriving DecidableEq, Repr

abbrev RateState := List (String × RateEntry)

/-- Whether a stored counter still exists at time `now` (a key with a TTL is
deleted once its expiry passes; a key without TTL persists). -/
def rateLive (e : RateEntry) (now : Nat) : Bool :=
  match e.expiry with
  | some t => decide (now < t)
  | none => true

/-- The currently live entry for a redis key, if any. -/
def rateEntry (s : RateState) (now : Nat) (k : String) : Option RateEntry :=
  match alGet s k with
  | some e => if rateLive e now then some e else none
  | none => none

/-- `checkRateLimit(identifier, limit, window)`:
`INCR rate_limit:${identifier}` (creating the key at 1 when absent or
expired), then `EXPIRE key window` only when the post-increment value is 1,
finally `current <= limit`. -/
def checkRateLimit (s : RateState) (now : Nat) (identifier : String)
    (limit window : Nat) : Bool × RateState :=
  let key := "rate_limit:" ++ identifier
  let prev := rateEntry s now key
  let current := (match prev with
    | some e => e.count
    | none => 0) + 1
  let expiry : Option Nat :=
    if current == 1 then some (now + window)
    else match prev with
      | some e => e.expiry
      | none => none
  (decide (current ≤ limit), alSet s key { count := current, expiry := expiry })

/-- `getCurrentUsage(identifier)`: `GET rate_limit:${identifier}` with 0 for
an absent (or expired) key. -/
def getCurrentUsage (s : RateState) (now : Nat) (identifier : String) : Nat :=
  match rateEntry s now ("rate_limit:" ++ identifier) with
  | some e => e.count
  | none => 0

/-! ### MetricsService (src/modules/monitoring/metrics.service.ts) -/

/-- One stored `JobMetric` row: duration in ms, status string
(`success` / `error` / `timeout`), timestamp in ms since epoch (`Int`, as a
JS `Date` value). -/
structure JobMetric where
  duration : Nat
  status : String
  timestamp : Int
deriving DecidableEq, Repr

/-- The metric rows inside the query window `timestamp >= now - hours·3600000`. -/
def metricsInWindow (metrics : List JobMetric) (now : Int) (hours : Int) :
    List JobMetric :=
  let since := now - hours * 3600000
  metrics.filter (fun m => decide (since ≤ m.timestamp))

/-- `getSuccessRate(hours)`: counts rows in the window, and rows in the window
with status `success`, and returns `total > 0 ? (successful / total) * 100 : 0`. -/
def getSuccessRate (metrics : List JobMetric) (now : Int) (hours : Int) : ℚ :=
  let total := (metricsInWindow metrics now hours).length
  let successful :=
    ((metricsInWindow metrics now hours).filter
      (fun m => m.status == "success")).length
  if 0 < total then ((successful : ℚ) / (total : ℚ)) * 100 else 0

/-! ### DashboardService.calculateHealthScore
(src/modules/monitoring/dashboard.service.ts) -/

inductive Health where
  | healthy
  | warning
  | critical
deriving DecidableEq, Repr

/-- The discrete health classification: the `critical` thresholds are tested
first, then the `warning` thresholds, else `healthy`. `successRate` and
`avgProcessingTime` are JS numbers (modelled as ℚ); `queueWaiting` is the
waiting-job count. -/
def calculateHealthScore (successRate avgProcessingTime : ℚ)
    (queueWaiting : Nat) : Health :=
  if successRate < 80 ∨ avgProcessingTime > 300000 ∨ queueWaiting > 100 then
    .critical
  else if successRate < 95 ∨ avgProcessingTime > 120000 ∨ queueWaiting > 50 then
    .warning
  else
    .healthy

/-! ### AutoScalerService (src/modules/scaling/auto-scaler.service.ts) -/

def maxWorkers : Nat := 10

def minWorkers : Nat := 1

/-- `calculateOptimalWorkers(queueDepth, avgProcessingTime)`, with the
instance field `this.currentWorkers` passed explicitly. -/
def calculateOptimalWorkers (currentWorkers : Nat) (queueDepth : Nat)
    (avgProcessingTime : ℚ) : Nat :=
  if queueDepth > 50 then
    min (currentWorkers + 2) maxWorkers
  else if avgProcessingTime > 180000 ∧ queueDepth > 10 then
    min (currentWorkers + 1) maxWorkers
  else if queueDepth = 0 ∧ currentWorkers > minWorkers then
    max (currentWorkers - 1) minWorkers
  else
    currentWorkers

/-! ### QueueService / PriorityQueueService — enqueue
(src/modules/queue/queue.service.ts and
src/modules/queue/priority-queue.service.ts)

TypeScript's required payload keys exist only at compile time; at runtime the
job data is a plain JS object in which any key may be absent. The runtime
payload is therefore modelled with `Option` fields. -/

structure RawJobPayload where
  owner : Option String
  repo : Option String
  pullNumber : Option Nat
  headSha : Option String
  baseSha : Option String
deriving DecidableEq, Repr

structure JobOptions where
  priority : Option Nat
  attempts : Nat
  backoffType : String
  backoffDelay : Nat
  removeOnComplete : Option Nat
  removeOnFail : Option Nat
deriving DecidableEq, Repr

structure QueuedJob where
  name : String
  data : RawJobPayload
  opts : JobOptions
deriving DecidableEq, Repr

/-- `QueueService.addCodeReviewJob(data)`: `queue.add('analyze-pull-request',
data, { attempts: 3, backoff: { type: 'exponential', delay: 2000 } })`.
No runtime inspection of `data` happens before the `add`. -/
def addCodeReviewJob (queue : List QueuedJob) (data : RawJobPayload) :
    List QueuedJob :=
  queue ++ [{ name := "analyze-pull-request"
              data := data
              opts := { priority := none
                        attempts := 3
                        backoffType := "exponential"
                        backoffDelay := 2000
                        removeOnComplete := none
                        removeOnFail := none } }]

inductive JobPriority where
  | low
  | normal
  | high
  | critical
deriving DecidableEq, Repr

/-- `priorityMap = { low: 1, normal: 5, high: 10, critical: 20 }`. -/
def priorityMap : JobPriority → Nat
  | .low => 1
  | .normal => 5
  | .high => 10
  | .critical => 20

/-- `getAttemptsForPriority`: `{ low: 2, normal: 3, high: 5, critical: 10 }`
(the `|| 3` fallback is unreachable for a value of the priority union type). -/
def getAttemptsForPriority : JobPriority → Nat
  | .low => 2
  | .normal => 3
  | .high => 5
  | .critical => 10

/-- `PriorityQueueService.addPriorityJob(data)`: builds the job options from
the priority and calls `queue.add('analyze-pull-request', data, jobOptions)`;
again no runtime validation of the payload fields. -/
def addPriorityJob (queue : List QueuedJob) (data : RawJobPayload)
    (priority : JobPriority) : List QueuedJob :=
  queue ++ [{ name := "analyze-pull-request"
              data := data
              opts := { priority := some (priorityMap priority)
                        attempts := getAttemptsForPriority priority
                        backoffType := "exponential"
                        backoffDelay := 2000
                        removeOnComplete := some 100
                        removeOnFail := some 50 } }]

/-! ### CodeAnalysisService
(src/modules/code-analysis/code-analysis.service.ts)

The heuristic pass reads the diff line by line; its three substring tests use
JS `String.includes`, and `containsSecurityRisk` tests seven small regexes,
each of the shape "literal token, optional whitespace, closing char" or a
plain substring. Those regexes are implemented directly over the character
list. -/

structure CodeIssue where
  type : String
  severity : String
  message : String
  line : Option String
  suggestion : String
deriving DecidableEq, Repr

structure CodeAnalysisResult where
  summary : String
  issues : List CodeIssue
  positives : List String
deriving DecidableEq, Repr

/-- The parsed OpenAI response (`parseResponse` returns an untyped object, so
every field may be absent). -/
structure AIAnalysis where
  summary : Option String
  issues : Option (List CodeIssue)
  positives : Option (List String)
deriving DecidableEq, Repr

/-- Does `s` start with `pat`? -/
def charsStartWith : List Char → List Char → Bool
  | _, [] => true
  | [], _ :: _ => false
  | c :: cs, p :: ps => c == p && charsStartWith cs ps

/-- Does `s` contain `pat` as a contiguous substring (JS `includes`)? -/
def charsContain : List Char → List Char → Bool
  | [], pat => pat.isEmpty
  | c :: cs, pat => charsStartWith (c :: cs) pat || charsContain cs pat

def containsSub (s pat : String) : Bool :=
  charsContain s.data pat.data

/-- JS `String.trim`: strip whitespace from both ends. -/
def jsTrim (s : String) : String :=
  ⟨((s.data.dropWhile Char.isWhitespace).reverse.dropWhile
      Char.isWhitespace).reverse⟩

/-- JS `String.split(sep)` for a one-character separator; `"".split` gives
`[""]`. -/
def splitOnChar (sep : Char) : List Char → List (List Char)
  | [] => [[]]
  | c :: cs =>
    let rest := splitOnChar sep cs
    if c == sep then [] :: rest
    else match rest with
      | r :: rs => (c :: r) :: rs
      | [] => [[c]]

def jsSplitNewline (s : String) : List String :=
  (splitOnChar (Char.ofNat 10) s.data).map (fun l => ⟨l⟩)

/-- After a matched token: skip `\s*` then require the closing character. -/
def wsThen (close : Char) : List Char → Bool
  | [] => false
  | c :: cs => if c.isWhitespace then wsThen close cs else c == close

/-- Regex `tok\s*close` tested anywhere in the string (`RegExp.test`). -/
def scanTokenWsClose (tok : List Char) (close : Char) : List Char → Bool
  | [] => false
  | c :: cs =>
    (charsStartWith (c :: cs) tok && wsThen close (List.drop tok.length (c :: cs)))
      || scanTokenWsClose tok close cs

/-- `containsSecurityRisk(content)`: the seven source patterns
`/eval\s*\(/`, `/innerHTML\s*=/`, `/document\.write\s*\(/`, `/\.exec\s*\(/`,
`/process\.env\./`, `/localStorage\./`, `/sessionStorage\./`. -/
def containsSecurityRisk (content : String) : Bool :=
  scanTokenWsClose "eval".data '(' content.data
    || scanTokenWsClose "innerHTML".data '=' content.data
    || scanTokenWsClose "document.write".data '(' content.data
    || scanTokenWsClose ".exec".data '(' content.data
    || containsSub content "process.env."
    || containsSub content "localStorage."
    || containsSub content "sessionStorage."

/-- `hasErrorHandling(lines, currentIndex)`: looks 10 lines around the current
one for a trimmed line containing `try {` or `catch`. -/
def hasErrorHandling (lines : List String) (currentIndex : Nat) : Bool :=
  let searchRange := 10
  let start := currentIndex - searchRange
  let stop := min lines.length (currentIndex + searchRange)
  (List.range' start (stop - start)).any fun j =>
    let line := jsTrim (lines.getD j "")
    containsSub line "try \x7b" || containsSub line "catch"

/-- The issues the loop body of `performHeuristicAnalysis` pushes for line
`i` (0-based), in push order; non-addition lines contribute nothing. -/
def heuristicIssuesAt (lines : List String) (i : Nat) (line : String) :
    List CodeIssue :=
  if !charsStartWith line.data "+".data then []
  else
    let content := jsTrim ⟨line.data.drop 1⟩
    (if containsSecurityRisk content then
      [{ type := "security", severity := "high"
         message := "Potential security risk detected"
         line := some (toString (i + 1))
         suggestion := "Review for security implications and add proper validation" }]
     else []) ++
    (if containsSub content "TODO" || containsSub content "FIXME" then
      [{ type := "best-practice", severity := "low"
         message := "TODO/FIXME comment found"
         line := some (toString (i + 1))
         suggestion := "Consider creating a proper issue tracker item" }]
     else []) ++
    (if containsSub content "console.log" then
      [{ type := "best-practice", severity := "low"
         message := "Console.log statement found"
         line := some (toString (i + 1))
         suggestion := "Use proper logging framework instead of console.log" }]
     else []) ++
    (if containsSub content "await " && !hasErrorHandling lines i then
      [{ type := "bug", severity := "medium"
         message := "Async operation without error handling"
         line := some (toString (i + 1))
         suggestion := "Add try-catch block or proper error handling" }]
     else [])

/-- `performHeuristicAnalysis(diff)`: split on newlines and scan each line. -/
def performHeuristicAnalysis (diff : String) : List CodeIssue :=
  let lines := jsSplitNewline diff
  (lines.enum.map (fun p => heuristicIssuesAt lines p.1 p.2)).flatten

/-- The fixed result returned for an empty / whitespace-only diff. -/
def noChangesResult : CodeAnalysisResult :=
  { summary := "No code changes detected", issues := [], positives := [] }

def degradedSummary : String :=
  "Analysis completed with basic checks only (AI analysis unavailable)"

/-- JS `a || b` on a possibly-absent string: the default is used when the
value is absent *or* the empty string (both are falsy). -/
def jsOrString (v : Option String) (dflt : String) : String :=
  match v with
  | some s => if s.data.isEmpty then dflt else s
  | none => dflt

/-- `analyzeCode(diff)`. The OpenAI call is the only step that can throw; its
outcome is passed in as `aiOutcome`. The function itself is total: the
source's `catch` turns an AI failure into the heuristic-only degraded
result. (JS `analysis.issues || []` and `analysis.positives || []` default
only absent values — an empty array is truthy.) -/
def analyzeCode (aiOutcome : Except String AIAnalysis) (diff : String) :
    CodeAnalysisResult :=
  if (jsTrim diff).length = 0 then noChangesResult
  else
    match aiOutcome with
    | .ok analysis =>
      { summary := jsOrString analysis.summary "Code analysis completed"
        issues := analysis.issues.getD [] ++ performHeuristicAnalysis diff
        positives := analysis.positives.getD [] }
    | .error _ =>
      { summary := degradedSummary
        issues := performHeuristicAnalysis diff
        positives := [] }

/-! ### CodeReviewProcessor (src/modules/queue/queue.processor.ts)

The dequeued job's data, with the fields the processors read. -/

structure JobData where
  owner : String
  repo : String
  pullNumber : Nat
  headSha : String
  baseSha : String
deriving DecidableEq, Repr

/-- A persisted review row (`reviews` table); new rows get the column default
status `pending`. -/
structure Review where
  id : Nat
  owner : String
  repo : String
  pullNumber : Nat
  commitSha : String
  summary : String
  status : String
deriving DecidableEq, Repr

/-- The outcomes of the fallible external calls the basic processor's
pipeline makes, supplied as parameters of the run. -/
structure PipelineEnv where
  diffResult : Except String String
  aiOutcome : Except String AIAnalysis
  postCommentsResult : Except String Unit
  postSummaryResult : Except String Unit

/-- The state the basic processor touches: review rows, saved review
comments, the GitHub posts made, and the recorded metric statuses (the basic
processor has no metrics service; the field lets the two processors be
compared on one state shape). -/
structure ProcessorState where
  reviews : List Review
  reviewComments : List (Nat × List CodeIssue)
  githubPosts : List String
  metrics : List String
deriving DecidableEq, Repr

/-- `DatabaseService.createReview`: inserts a row (summary `Processing...` at
the processor's call site) with default status `pending`; ids are assigned
sequentially. -/
def createReview (s : ProcessorState) (owner repo : String) (pullNumber : Nat)
    (commitSha summary : String) : Review × ProcessorState :=
  let r : Review :=
    { id := s.reviews.length, owner := owner, repo := repo
      pullNumber := pullNumber, commitSha := commitSha
      summary := summary, status := "pending" }
  (r, { s with reviews := s.reviews ++ [r] })

/-- `DatabaseService.updateReviewStatus`. -/
def updateReviewStatus (s : ProcessorState) (id : Nat) (status : String) :
    ProcessorState :=
  { s with reviews := s.reviews.map fun r =>
      if r.id = id then { r with status := status } else r }

/-- The status of review row `id`, for stating the theorems. -/
def reviewStatus (s : ProcessorState) (id : Nat) : Option String :=
  (s.reviews.find? (fun r => r.id == id)).map (fun r => r.status)

/-- The `try` block of `CodeReviewProcessor.handleCodeReview` after the
review row exists and has been marked `in_progress` (state `s2`): fetch the
diff, analyze it, save + post comments when there are issues, mark the
review `completed`, post the summary. Any step's failure aborts the rest but
keeps the state mutations already made. -/
def handleCodeReviewTry (env : PipelineEnv) (rid : Nat) (s2 : ProcessorState) :
    Except String Unit × ProcessorState :=
  match env.diffResult with
  | .error e => (.error e, s2)
  | .ok diff =>
    match (if (analyzeCode env.aiOutcome diff).issues.length > 0 then
        match env.postCommentsResult with
        | .error e =>
          (.error e, { s2 with reviewComments :=
            s2.reviewComments ++ [(rid, (analyzeCode env.aiOutcome diff).issues)] })
        | .ok _ =>
          (.ok (), { s2 with
            reviewComments :=
              s2.reviewComments ++ [(rid, (analyzeCode env.aiOutcome diff).issues)]
            githubPosts := s2.githubPosts ++ ["comments"] })
      else ((.ok (), s2) : Except String Unit × ProcessorState)) with
    | (.error e, s') => (.error e, s')
    | (.ok _, s') =>
      match env.postSummaryResult with
      | .error e => (.error e, updateReviewStatus s' rid "completed")
      | .ok _ =>
        (.ok (), { updateReviewStatus s' rid "completed" with
          githubPosts :=
            (updateReviewStatus s' rid "completed").githubPosts ++ ["summary"] })

/-- `CodeReviewProcessor.handleCodeReview(job)`: create the review row, mark
it `in_progress`, run the try block; the `catch` marks the review `failed`
and re-throws. Database writes are modelled as infallible. -/
def handleCodeReview (env : PipelineEnv) (job : JobData)
    (s0 : ProcessorState) : Except String Unit × ProcessorState :=
  match createReview s0 job.owner job.repo job.pullNumber job.headSha
      "Processing..." with
  | (review, s1) =>
    match handleCodeReviewTry env review.id
        (updateReviewStatus s1 review.id "in_progress") with
    | (.ok _, s') => (.ok (), s')
    | (.error e, s') => (.error e, updateReviewStatus s' review.id "failed")

/-! ### EnhancedCodeReviewProcessor
(src/modules/queue/enhanced-processor.service.ts) -/

/-- The JSON-ish value `handleCodeReview` returns: the duplicate sentinel
`{ status: 'duplicate', ... }` or the result of `processCodeReview`
(`{ status: 'completed' }` in the source stub). -/
inductive JobOutcome where
  | duplicate
  | completed
deriving DecidableEq, Repr

/-- The shared store the enhanced processor touches: the lock keys, the rate
counters, and the recorded metric statuses. -/
structure EnhancedState where
  locks : LockState
  rates : RateState
  metrics : List String
deriving DecidableEq, Repr

/-- `EnhancedCodeReviewProcessor.handleCodeReview(job)`.
`processCodeReview` is a stub in the source (standing for the real pipeline),
so its outcome is a parameter. Inside `try`: the rate check
(`github:${owner}`, 100 per 3600s) throws `Rate limit exceeded` on
rejection; then `acquireLock('pr:${owner}/${repo}:${pullNumber}', 300000)` —
on failure the duplicate sentinel is *returned* (not thrown); on success the
pipeline runs and a `success` metric is recorded. The `catch` records an
`error` metric and re-throws; the `finally` always calls `releaseLock` on
the pr key — including on the duplicate and rate-limited paths. -/
def enhancedHandleCodeReview (now : Nat) (job : JobData)
    (processResult : Except String JobOutcome) (s0 : EnhancedState) :
    Except String JobOutcome × EnhancedState :=
  let repoIdentifier := job.owner ++ "/" ++ job.repo
  let prKey := "pr:" ++ repoIdentifier ++ ":" ++ toString job.pullNumber
  let (canProceed, rates1) :=
    checkRateLimit s0.rates now ("github:" ++ job.owner) 100 3600
  let s1 := { s0 with rates := rates1 }
  let tryResult : Except String JobOutcome × EnhancedState :=
    if !canProceed then (.error "Rate limit exceeded", s1)
    else
      let (lockAcquired, locks1) := acquireLock s1.locks now prKey 300000
      let s2 := { s1 with locks := locks1 }
      if !lockAcquired then (.ok .duplicate, s2)
      else
        match processResult with
        | .ok r => (.ok r, { s2 with metrics := s2.metrics ++ ["success"] })
        | .error e => (.error e, s2)
  let caught : Except String JobOutcome × EnhancedState :=
    match tryResult with
    | (.ok r, s') => (.ok r, s')
    | (.error e, s') => (.error e, { s' with metrics := s'.metrics ++ ["error"] })
  (caught.1, { caught.2 with locks := releaseLock caught.2.locks prKey })

/-- Test driver: run `checkRateLimit` once per listed call time, collecting
the returned booleans (used to state the spec's six-rapid-calls scenario). -/
def rateCallSeq (s : RateState) (times : List Nat) (identifier : String)
    (limit window : Nat) : List Bool × RateState :=
  times.foldl (fun acc t =>
    let r := checkRateLimit acc.2 t identifier limit window
    (acc.1 ++ [r.1], r.2)) ([], s)

/-! ## Helper lemmas about the keyspace model -/

theorem alGet_alSet_self {α : Type} (s : List (String × α)) (k : String) (v : α) :
    alGet (alSet s k v) k = some v := by
  simp [alGet, alSet]

theorem alGet_alDel_self {α : Type} (s : List (String × α)) (k : String) :
    alGet (alDel s k) k = none := by
  simp only [alGet, alDel, Option.map_eq_none', List.find?_eq_none]
  intro x hx
  have hmem := (List.mem_filter.mp hx).2
  simpa using hmem

theorem alDel_of_alGet_none {α : Type} (s : List (String × α)) (k : String)
    (h : alGet s k = none) : alDel s k = s := by
  simp only [alGet, Option.map_eq_none', List.find?_eq_none] at h
  simp only [alDel]
  rw [List.filter_eq_self]
  intro x hx
  simpa using h x hx

theorem acquireLock_after_release (s : LockState) (r : String) (now ttl : Nat) :
    (acquireLock (releaseLock s r) now r ttl).1 = true := by
  have h : lockExists (releaseLock s r) now ("lock:" ++ r) = false := by
    simp [lockExists, releaseLock, alGet_alDel_self]
  simp [acquireLock, h]

theorem lockKeyCount_alSet_le (s : LockState) (kk : String) (v : Nat) (k : String)
    (h : lockKeyCount s k ≤ 1) : lockKeyCount (alSet s kk v) k ≤ 1 := by
  unfold lockKeyCount alSet
  rw [List.countP_cons, List.countP_filter]
  by_cases hk : kk = k
  · subst hk
    simp [List.countP_eq_zero]
  · have h0 : (List.countP (fun a => a.1 == k && !(a.1 == kk)) s) ≤
        List.countP (fun a => a.1 == k) s := by
      refine List.countP_mono_left ?_
      intro a _ ha
      simp only [Bool.and_eq_true] at ha
      exact ha.1
    simp only [show ((kk, v).1 == k) = false by simpa using hk]
    simpa using le_trans h0 h

theorem lockKeyCount_alDel_le (s : LockState) (kk k : String)
    (h : lockKeyCount s k ≤ 1) : lockKeyCount (alDel s kk) k ≤ 1 := by
  unfold lockKeyCount alDel
  rw [List.countP_filter]
  refine le_trans (List.countP_mono_left ?_) h
  intro a _ ha
  simp only [Bool.and_eq_true] at ha
  exact ha.1

theorem lockStep_count_le (s : LockState) (op : LockOp)
    (h : ∀ k, lockKeyCount s k ≤ 1) : ∀ k, lockKeyCount (lockStep s op) k ≤ 1 := by
  intro k
  cases op with
  | acquire now r ttl =>
    unfold lockStep acquireLock
    cases hx : lockExists s now ("lock:" ++ r) with
    | true => simpa [hx] using h k
    | false => simpa [hx] using lockKeyCount_alSet_le s _ _ k (h k)
  | release r =>
    exact lockKeyCount_alDel_le _ _ _ (h k)

theorem runLockOps_count_le (ops : List LockOp) (k : String) :
    lockKeyCount (runLockOps ops) k ≤ 1 := by
  have aux : ∀ (l : List LockOp) (s : LockState), (∀ k', lockKeyCount s k' ≤ 1) →
      ∀ k', lockKeyCount (l.foldl lockStep s) k' ≤ 1 := by
    intro l
    induction l with
    | nil => intro s h k'; simpa using h k'
    | cons op rest ih => intro s h k'; exact ih _ (lockStep_count_le s op h) k'
  exact aux ops [] (fun k' => by simp [lockKeyCount]) k

/-! ## Helper lemmas about review bookkeeping -/

theorem reviewStatus_update_of_mem (s : ProcessorState) (n : Nat) (st : String)
    (h : ∃ x ∈ s.reviews, x.id = n) :
    reviewStatus (updateReviewStatus s n st) n = some st := by
  unfold reviewStatus updateReviewStatus
  simp only [List.find?_map]
  have hpf : ((fun r : Review => r.id == n) ∘
      (fun r : Review => if r.id = n then { r with status := st } else r)) =
      (fun r : Review => r.id == n) := by
    funext r
    by_cases hr : r.id = n <;> simp [hr]
  rw [hpf]
  obtain ⟨x, hx, hid⟩ := h
  have hsome : (s.reviews.find? (fun r => r.id == n)).isSome := by
    rw [List.find?_isSome]
    exact ⟨x, hx, by simpa using hid⟩
  obtain ⟨r₀, hr₀⟩ := Option.isSome_iff_exists.mp hsome
  have hr₀id : r₀.id = n := by
    have := List.find?_some hr₀
    simpa using this
  rw [hr₀]
  simp [hr₀id]

theorem exists_id_updateReviewStatus (s : ProcessorState) (m : Nat) (st : String)
    (n : Nat) (h : ∃ x ∈ s.reviews, x.id = n) :
    ∃ x ∈ (updateReviewStatus s m st).reviews, x.id = n := by
  obtain ⟨x, hx, hid⟩ := h
  unfold updateReviewStatus
  refine ⟨if x.id = m then { x with status := st } else x, ?_, ?_⟩
  · simp only [List.mem_map]
    exact ⟨x, hx, rfl⟩
  · by_cases hxm : x.id = m
    · rw [if_pos hxm]; simpa using hid
    · rw [if_neg hxm]; exact hid

theorem handleCodeReviewTry_preserves_id (env : PipelineEnv) (rid : Nat)
    (s2 : ProcessorState) (res : Except String Unit) (s' : ProcessorState)
    (n : Nat) (hmem : ∃ x ∈ s2.reviews, x.id = n)
    (h : handleCodeReviewTry env rid s2 = (res, s')) :
    ∃ x ∈ s'.reviews, x.id = n := by
  unfold handleCodeReviewTry at h
  split at h
  · obtain ⟨-, h2⟩ := (Prod.mk.injEq _ _ _ _).mp h
    rw [← h2]
    exact hmem
  · split at h
    · rename_i eY sY heqA
      obtain ⟨-, h2⟩ := (Prod.mk.injEq _ _ _ _).mp h
      rw [← h2]
      split at heqA
      · split at heqA
        · obtain ⟨-, h3⟩ := (Prod.mk.injEq _ _ _ _).mp heqA
          rw [← h3]
          exact hmem
        · simp at heqA
      · simp at heqA
    · rename_i u sY heqA
      have hmemY : ∃ x ∈ sY.reviews, x.id = n := by
        split at heqA
        · split at heqA
          · simp at heqA
          · obtain ⟨-, h3⟩ := (Prod.mk.injEq _ _ _ _).mp heqA
            rw [← h3]
            exact hmem
        · obtain ⟨-, h3⟩ := (Prod.mk.injEq _ _ _ _).mp heqA
          rw [← h3]
          exact hmem
      split at h
      · obtain ⟨-, h2⟩ := (Prod.mk.injEq _ _ _ _).mp h
        rw [← h2]
        exact exists_id_updateReviewStatus _ _ _ _ hmemY
      · obtain ⟨-, h2⟩ := (Prod.mk.injEq _ _ _ _).mp h
        rw [← h2]
        exact exists_id_updateReviewStatus _ _ _ _ hmemY

/-! ## Claim theorems -/

/-- C1: `acquireLock` returns true and records the lock exactly when no
unexpired lock exists for the resource key at the moment of the call, and
returns false leaving the store unchanged otherwise; every store reachable
by acquire/release operations holds at most one record per key; and after a
successful acquire, a second acquire of the same key within the TTL (with no
intervening operation) returns false. -/
theorem acquireLock_mutual_exclusion :
    (∀ (s : LockState) (now ttl : Nat) (r : String),
      (acquireLock s now r ttl).1 = true ↔
        lockExists s now ("lock:" ++ r) = false) ∧
    (∀ (s : LockState) (now ttl : Nat) (r : String),
      (acquireLock s now r ttl).1 = false → (acquireLock s now r ttl).2 = s) ∧
    (∀ (s : LockState) (now ttl : Nat) (r : String),
      (acquireLock s now r ttl).1 = true →
        alGet (acquireLock s now r ttl).2 ("lock:" ++ r) = some (now + ttl)) ∧
    (∀ (ops : List LockOp) (k : String), lockKeyCount (runLockOps ops) k ≤ 1) ∧
    (∀ (s : LockState) (t1 t2 ttl ttl' : Nat) (r : String),
      (acquireLock s t1 r ttl).1 = true → t2 < t1 + ttl →
        (acquireLock (acquireLock s t1 r ttl).2 t2 r ttl').1 = false) := by
  refine ⟨?_, ?_, ?_, ?_, ?_⟩
  · intro s now ttl r
    cases hx : lockExists s now ("lock:" ++ r) <;> simp [acquireLock, hx]
  · intro s now ttl r
    cases hx : lockExists s now ("lock:" ++ r) <;> simp [acquireLock, hx]
  · intro s now ttl r
    cases hx : lockExists s now ("lock:" ++ r) <;>
      simp [acquireLock, hx, alGet_alSet_self]
  · exact runLockOps_count_le
  · intro s t1 t2 ttl ttl' r h1 h2
    have hx : lockExists s t1 ("lock:" ++ r) = false := by
      cases hxx : lockExists s t1 ("lock:" ++ r)
      · rfl
      · simp [acquireLock, hxx] at h1
    have hstate : (acquireLock s t1 r ttl).2 = alSet s ("lock:" ++ r) (t1 + ttl) := by
      simp [acquireLock, hx]
    rw [hstate]
    have hex : lockExists (alSet s ("lock:" ++ r) (t1 + ttl)) t2 ("lock:" ++ r)
        = true := by
      unfold lockExists
      rw [alGet_alSet_self]
      simpa using h2
    simp [acquireLock, hex]

/-- Witness for C1: on the empty store the first acquire of
`pr:acme/api:7` (TTL 300000 at t=0) succeeds and a second acquire of the
same key at t=100 fails. -/
theorem acquireLock_mutual_exclusion_witness :
    (acquireLock [] 0 "pr:acme/api:7" 300000).1 = true ∧
    (acquireLock (acquireLock [] 0 "pr:acme/api:7" 300000).2
      100 "pr:acme/api:7" 60000).1 = false :=
  ⟨(acquireLock_mutual_exclusion.1 [] 0 300000 "pr:acme/api:7").mpr (by decide),
   acquireLock_mutual_exclusion.2.2.2.2 [] 0 100 300000 60000 "pr:acme/api:7"
     (by decide) (by decide)⟩

/-- C8: `releaseLock` unconditionally deletes the lock record for the key
regardless of which holder set it, is idempotent (releasing an absent key
changes nothing, and release after release equals a single release), and
after any release a subsequent acquire on the same key succeeds. -/
theorem releaseLock_unconditional_idempotent :
    (∀ (s : LockState) (r : String),
      alGet (releaseLock s r) ("lock:" ++ r) = none) ∧
    (∀ (s : LockState) (r : String),
      alGet s ("lock:" ++ r) = none → releaseLock s r = s) ∧
    (∀ (s : LockState) (r : String),
      releaseLock (releaseLock s r) r = releaseLock s r) ∧
    (∀ (s : LockState) (now ttl : Nat) (r : String),
      (acquireLock (releaseLock s r) now r ttl).1 = true) := by
  refine ⟨?_, ?_, ?_, ?_⟩
  · intro s r
    exact alGet_alDel_self s ("lock:" ++ r)
  · intro s r h
    exact alDel_of_alGet_none s ("lock:" ++ r) h
  · intro s r
    exact alDel_of_alGet_none _ ("lock:" ++ r) (alGet_alDel_self s ("lock:" ++ r))
  · intro s now ttl r
    exact acquireLock_after_release s r now ttl

/-- Witness for C8: releasing a key absent from a store holding an unrelated
lock leaves the store unchanged, and acquire succeeds right after a release
of a held key. -/
theorem releaseLock_unconditional_idempotent_witness :
    releaseLock [("lock:other", 5)] "pr:acme/api:7" = [("lock:other", 5)] ∧
    (acquireLock (releaseLock [("lock:pr:acme/api:7", 999999)] "pr:acme/api:7")
      0 "pr:acme/api:7" 100).1 = true :=
  ⟨releaseLock_unconditional_idempotent.2.1 [("lock:other", 5)] "pr:acme/api:7"
     (by decide),
   releaseLock_unconditional_idempotent.2.2.2
     [("lock:pr:acme/api:7", 999999)] 0 100 "pr:acme/api:7"⟩

/-- C3: `checkRateLimit` always increments the identifier's counter (a fresh
or expired counter restarts at 1), attaches the window expiry exactly when
the post-increment count is 1, and returns true iff the post-increment count
is ≤ the limit; with limit 5 and window 60, six rapid calls return true five
times then false (the rejected sixth still counts, leaving the counter at
6), and once the window has elapsed the next call returns true with the
counter reset to 1. -/
theorem checkRateLimit_spec :
    (∀ (s : RateState) (now : Nat) (id : String) (limit window : Nat),
      rateEntry s now ("rate_limit:" ++ id) = none →
        (checkRateLimit s now id limit window).2 =
          alSet s ("rate_limit:" ++ id)
            { count := 1, expiry := some (now + window) } ∧
        ((checkRateLimit s now id limit window).1 = true ↔ 1 ≤ limit)) ∧
    (∀ (s : RateState) (now : Nat) (id : String) (limit window : Nat)
        (e : RateEntry),
      rateEntry s now ("rate_limit:" ++ id) = some e → 0 < e.count →
        (checkRateLimit s now id limit window).2 =
          alSet s ("rate_limit:" ++ id)
            { count := e.count + 1, expiry := e.expiry } ∧
        ((checkRateLimit s now id limit window).1 = true ↔
          e.count + 1 ≤ limit)) ∧
    (rateCallSeq [] [0, 0, 0, 0, 0, 0] "github:acme" 5 60).1 =
      [true, true, true, true, true, false] ∧
    getCurrentUsage (rateCallSeq [] [0, 0, 0, 0, 0, 0] "github:acme" 5 60).2
      0 "github:acme" = 6 ∧
    (checkRateLimit (rateCallSeq [] [0, 0, 0, 0, 0, 0] "github:acme" 5 60).2
      60 "github:acme" 5 60).1 = true ∧
    getCurrentUsage (checkRateLimit
      (rateCallSeq [] [0, 0, 0, 0, 0, 0] "github:acme" 5 60).2
      60 "github:acme" 5 60).2 60 "github:acme" = 1 := by
  refine ⟨?_, ?_, by decide, by decide, by decide, by decide⟩
  · intro s now id limit window h
    constructor
    · simp [checkRateLimit, h]
    · simp [checkRateLimit, h]
  · intro s now id limit window e h he
    have hne : (e.count + 1 == 1) = false := by
      simp only [beq_eq_false_iff_ne, ne_eq]
      omega
    constructor
    · simp [checkRateLimit, h, hne]
    · simp [checkRateLimit, h, hne]

/-- Witness for C3: the first-ever call for an identifier stores count 1 with
the window expiry and is allowed. -/
theorem checkRateLimit_spec_witness :
    (checkRateLimit [] 0 "github:acme" 5 60).2 =
      alSet [] ("rate_limit:" ++ "github:acme") { count := 1, expiry := some 60 } ∧
    (checkRateLimit [] 0 "github:acme" 5 60).1 = true := by
  have h := checkRateLimit_spec.1 [] 0 "github:acme" 5 60 (by decide)
  constructor
  · simpa using h.1
  · exact h.2.mpr (by decide)

/-- C2: when the enhanced processor's rate check passes but the PR lock is
already held (unexpired), `handleCodeReview` settles the job as `duplicate`
— yet its `finally` block deletes the lock record still held by the
concurrently-processing worker, and an immediately subsequent acquire on the
same key succeeds. -/
theorem duplicate_outcome_releases_foreign_lock
    (s0 : EnhancedState) (now t ttl : Nat) (job : JobData)
    (procRes : Except String JobOutcome)
    (hrate : (checkRateLimit s0.rates now ("github:" ++ job.owner) 100 3600).1
      = true)
    (hlock : lockExists s0.locks now
      ("lock:" ++ ("pr:" ++ (job.owner ++ "/" ++ job.repo) ++ ":" ++
        toString job.pullNumber)) = true) :
    (enhancedHandleCodeReview now job procRes s0).1 = .ok .duplicate ∧
    alGet (enhancedHandleCodeReview now job procRes s0).2.locks
      ("lock:" ++ ("pr:" ++ (job.owner ++ "/" ++ job.repo) ++ ":" ++
        toString job.pullNumber)) = none ∧
    (acquireLock (enhancedHandleCodeReview now job procRes s0).2.locks t
      ("pr:" ++ (job.owner ++ "/" ++ job.repo) ++ ":" ++
        toString job.pullNumber) ttl).1 = true := by
  rcases hcr : checkRateLimit s0.rates now ("github:" ++ job.owner) 100 3600
    with ⟨b, rates1⟩
  rw [hcr] at hrate
  simp only at hrate
  subst hrate
  have hacq : acquireLock s0.locks now
      ("pr:" ++ (job.owner ++ "/" ++ job.repo) ++ ":" ++
        toString job.pullNumber) 300000 = (false, s0.locks) := by
    simp [acquireLock, hlock]
  unfold enhancedHandleCodeReview
  rw [hcr]
  simp only [hacq, Bool.not_true, Bool.false_eq_true, if_false, Bool.not_false,
    if_true]
  refine ⟨trivial, ?_, ?_⟩
  · exact alGet_alDel_self _ _
  · exact acquireLock_after_release _ _ _ _

/-- Witness for C2: with `pr:acme/api:7` locked until t=1000 by another
worker, processing the same job at t=0 yields the duplicate outcome, the
lock is gone afterwards, and an immediate re-acquire succeeds. -/
theorem duplicate_outcome_releases_foreign_lock_witness :
    (enhancedHandleCodeReview 0 ⟨"acme", "api", 7, "h1", "b0"⟩
      (.ok .completed) ⟨[("lock:pr:acme/api:7", 1000)], [], []⟩).1
      = .ok .duplicate ∧
    alGet (enhancedHandleCodeReview 0 ⟨"acme", "api", 7, "h1", "b0"⟩
      (.ok .completed) ⟨[("lock:pr:acme/api:7", 1000)], [], []⟩).2.locks
      ("lock:" ++ ("pr:" ++ ("acme" ++ "/" ++ "api") ++ ":" ++ toString 7))
      = none ∧
    (acquireLock (enhancedHandleCodeReview 0 ⟨"acme", "api", 7, "h1", "b0"⟩
      (.ok .completed) ⟨[("lock:pr:acme/api:7", 1000)], [], []⟩).2.locks 5
      ("pr:" ++ ("acme" ++ "/" ++ "api") ++ ":" ++ toString 7) 300000).1
      = true := by
  have h := duplicate_outcome_releases_foreign_lock
    ⟨[("lock:pr:acme/api:7", 1000)], [], []⟩ 0 5 300000
    ⟨"acme", "api", 7, "h1", "b0"⟩ (.ok .completed) (by decide) (by decide)
  exact ⟨h.1, h.2.1, h.2.2⟩

/-- C4 counterexample: with zero JobMetric samples in the window
`getSuccessRate` returns 0, not 100 as claimed. -/
theorem getSuccessRate_zero_samples_counterexample :
    getSuccessRate [] 0 24 = 0 ∧ ¬ getSuccessRate [] 0 24 = 100 := by
  constructor
  · rfl
  · intro h
    rw [show getSuccessRate [] 0 24 = 0 from rfl] at h
    norm_num at h

/-- C4 (amended): `getSuccessRate` returns 0 when there are zero samples in
the window (still avoiding the division by zero); when samples exist it
returns (successful / total) × 100; either way the result lies in [0, 100]. -/
theorem getSuccessRate_spec (metrics : List JobMetric) (now hours : Int) :
    ((metricsInWindow metrics now hours).length = 0 →
      getSuccessRate metrics now hours = 0) ∧
    (0 < (metricsInWindow metrics now hours).length →
      getSuccessRate metrics now hours =
        (((metricsInWindow metrics now hours).filter
            (fun m => m.status == "success")).length : ℚ)
          / ((metricsInWindow metrics now hours).length : ℚ) * 100) ∧
    0 ≤ getSuccessRate metrics now hours ∧
    getSuccessRate metrics now hours ≤ 100 := by
  have hdef : getSuccessRate metrics now hours =
      if 0 < (metricsInWindow metrics now hours).length then
        (((metricsInWindow metrics now hours).filter
            (fun m => m.status == "success")).length : ℚ)
          / ((metricsInWindow metrics now hours).length : ℚ) * 100
      else 0 := rfl
  have hle : ((metricsInWindow metrics now hours).filter
      (fun m => m.status == "success")).length ≤
      (metricsInWindow metrics now hours).length :=
    List.length_filter_le _ _
  refine ⟨?_, ?_, ?_, ?_⟩
  · intro h
    rw [hdef, if_neg]
    omega
  · intro h
    rw [hdef, if_pos h]
  · rw [hdef]
    by_cases h : 0 < (metricsInWindow metrics now hours).length
    · rw [if_pos h]
      positivity
    · rw [if_neg h]
  · rw [hdef]
    by_cases h : 0 < (metricsInWindow metrics now hours).length
    · rw [if_pos h]
      have htQ : (0 : ℚ) < ((metricsInWindow metrics now hours).length : ℚ) := by
        exact_mod_cast h
      have hdiv : (((metricsInWindow metrics now hours).filter
          (fun m => m.status == "success")).length : ℚ)
          / ((metricsInWindow metrics now hours).length : ℚ) ≤ 1 := by
        rw [div_le_one htQ]
        exact_mod_cast hle
      have := mul_le_mul_of_nonneg_right hdiv (by norm_num : (0 : ℚ) ≤ 100)
      simpa using this
    · rw [if_neg h]
      norm_num

/-- Witness for C4 (amended): one success and one error inside the window
give a 50% success rate. -/
theorem getSuccessRate_spec_witness :
    getSuccessRate [⟨5, "success", 0⟩, ⟨7, "error", 0⟩] 0 24 = 50 := by
  have h := (getSuccessRate_spec [⟨5, "success", 0⟩, ⟨7, "error", 0⟩] 0 24).2.1
    (by decide)
  rw [h,
    show ((metricsInWindow [⟨5, "success", 0⟩, ⟨7, "error", 0⟩] 0 24).filter
      (fun m => m.status == "success")).length = 1 from by decide,
    show (metricsInWindow [⟨5, "success", 0⟩, ⟨7, "error", 0⟩] 0 24).length = 2
      from by decide]
  norm_num

/-- C5: the health classification is `critical` iff successRate < 80 or
avgProcessingTime > 300000 or queueWaiting > 100, else `warning` iff
successRate < 95 or avgProcessingTime > 120000 or queueWaiting > 50, else
`healthy` (the most severe matching class wins); with the three concrete
examples from the spec. -/
theorem calculateHealthScore_spec (sr t : ℚ) (w : Nat) :
    (calculateHealthScore sr t w = .critical ↔
      (sr < 80 ∨ t > 300000 ∨ w > 100)) ∧
    (calculateHealthScore sr t w = .warning ↔
      (¬(sr < 80 ∨ t > 300000 ∨ w > 100) ∧ (sr < 95 ∨ t > 120000 ∨ w > 50))) ∧
    (calculateHealthScore sr t w = .healthy ↔
      (¬(sr < 80 ∨ t > 300000 ∨ w > 100) ∧
        ¬(sr < 95 ∨ t > 120000 ∨ w > 50))) ∧
    calculateHealthScore 70 1000 0 = .critical ∧
    calculateHealthScore 96 1000 0 = .healthy ∧
    calculateHealthScore 90 1000 0 = .warning := by
  refine ⟨?_, ?_, ?_, ?_, ?_, ?_⟩
  · unfold calculateHealthScore
    split_ifs with h1 h2 <;> simp_all
  · unfold calculateHealthScore
    split_ifs with h1 h2 <;> simp_all
  · unfold calculateHealthScore
    split_ifs with h1 h2 <;> simp_all
  · norm_num [calculateHealthScore]
  · norm_num [calculateHealthScore]
  · norm_num [calculateHealthScore]

/-- C6: the worker recommendation follows the ordered rule cascade (only the
first matching rule fires), always stays within [minWorkers, maxWorkers] for
currentWorkers in that range, queueDepth > 50 yields currentWorkers+2 capped
at maxWorkers, and queueDepth = 0 with 3 workers yields 2. -/
theorem calculateOptimalWorkers_spec (cw qd : Nat) (t : ℚ)
    (hmin : minWorkers ≤ cw) (hmax : cw ≤ maxWorkers) :
    (qd > 50 → calculateOptimalWorkers cw qd t = min (cw + 2) maxWorkers) ∧
    (¬(qd > 50) → (t > 180000 ∧ qd > 10) →
      calculateOptimalWorkers cw qd t = min (cw + 1) maxWorkers) ∧
    (¬(qd > 50) → ¬(t > 180000 ∧ qd > 10) → (qd = 0 ∧ cw > minWorkers) →
      calculateOptimalWorkers cw qd t = max (cw - 1) minWorkers) ∧
    (¬(qd > 50) → ¬(t > 180000 ∧ qd > 10) → ¬(qd = 0 ∧ cw > minWorkers) →
      calculateOptimalWorkers cw qd t = cw) ∧
    minWorkers ≤ calculateOptimalWorkers cw qd t ∧
    calculateOptimalWorkers cw qd t ≤ maxWorkers ∧
    (qd = 60 → calculateOptimalWorkers cw qd t = min (cw + 2) maxWorkers) ∧
    calculateOptimalWorkers 3 0 t = 2 := by
  refine ⟨?_, ?_, ?_, ?_, ?_, ?_, ?_, ?_⟩
  · intro h
    unfold calculateOptimalWorkers
    rw [if_pos h]
  · intro h1 h2
    unfold calculateOptimalWorkers
    rw [if_neg h1, if_pos h2]
  · intro h1 h2 h3
    unfold calculateOptimalWorkers
    rw [if_neg h1, if_neg h2, if_pos h3]
  · intro h1 h2 h3
    unfold calculateOptimalWorkers
    rw [if_neg h1, if_neg h2, if_neg h3]
  · unfold calculateOptimalWorkers minWorkers maxWorkers at *
    split_ifs <;> omega
  · unfold calculateOptimalWorkers minWorkers maxWorkers at *
    split_ifs <;> omega
  · intro h
    unfold calculateOptimalWorkers
    rw [if_pos (by omega : qd > 50)]
  · have h2 : ¬(t > 180000 ∧ (0 : Nat) > 10) := by
      rintro ⟨-, hq⟩
      omega
    have h3 : (0 : Nat) = 0 ∧ 3 > minWorkers := ⟨rfl, by norm_num [minWorkers]⟩
    unfold calculateOptimalWorkers
    rw [if_neg (by omega : ¬(0 : Nat) > 50), if_neg h2, if_pos h3]
    norm_num [minWorkers]

/-- Witness for C6: nine workers with queue depth 60 scale to the cap 10;
three workers with an empty queue scale down to 2. -/
theorem calculateOptimalWorkers_spec_witness :
    calculateOptimalWorkers 9 60 0 = 10 ∧
    calculateOptimalWorkers 3 0 (500000 : ℚ) = 2 := by
  have h := calculateOptimalWorkers_spec 9 60 (0 : ℚ)
    (by norm_num [minWorkers]) (by norm_num [maxWorkers])
  have h2 := calculateOptimalWorkers_spec 3 0 (500000 : ℚ)
    (by norm_num [minWorkers]) (by norm_num [maxWorkers])
  constructor
  · rw [h.1 (by norm_num)]
    norm_num [maxWorkers]
  · exact h2.2.2.2.2.2.2.2

/-- C7 counterexample: a payload whose `headSha` key is absent is enqueued
anyway — `addCodeReviewJob` performs no runtime validation and raises no
`ValidationError`, so a job is added rather than rejected. -/
theorem addCodeReviewJob_missing_key_counterexample :
    (⟨some "acme", some "api", some 7, none, some "b0"⟩ :
      RawJobPayload).headSha = none ∧
    addCodeReviewJob [] ⟨some "acme", some "api", some 7, none, some "b0"⟩
      ≠ [] ∧
    (addCodeReviewJob []
      ⟨some "acme", some "api", some 7, none, some "b0"⟩).length = 1 := by
  refine ⟨rfl, ?_, rfl⟩
  decide

/-- C7 (amended): neither enqueue path validates the payload at runtime —
required keys exist only in the compile-time type. Every call appends
exactly one job (never failing), with attempts 3 and exponential backoff
delay 2000 for `addCodeReviewJob`, and the priority-derived options for
`addPriorityJob`. -/
theorem enqueue_appends_without_validation :
    (∀ (q : List QueuedJob) (data : RawJobPayload),
      (addCodeReviewJob q data).length = q.length + 1 ∧
      (addCodeReviewJob q data).take q.length = q ∧
      ∃ j, (addCodeReviewJob q data).getLast? = some j ∧ j.data = data ∧
        j.name = "analyze-pull-request" ∧ j.opts.attempts = 3 ∧
        j.opts.backoffType = "exponential" ∧ j.opts.backoffDelay = 2000) ∧
    (∀ (q : List QueuedJob) (data : RawJobPayload) (p : JobPriority),
      (addPriorityJob q data p).length = q.length + 1 ∧
      (addPriorityJob q data p).take q.length = q ∧
      ∃ j, (addPriorityJob q data p).getLast? = some j ∧ j.data = data ∧
        j.opts.priority = some (priorityMap p) ∧
        j.opts.attempts = getAttemptsForPriority p) := by
  constructor
  · intro q data
    refine ⟨by simp [addCodeReviewJob], ?_, ?_⟩
    · unfold addCodeReviewJob
      exact List.take_left q _
    · exact ⟨⟨"analyze-pull-request", data, ⟨none, 3, "exponential", 2000,
        none, none⟩⟩, List.getLast?_concat _, rfl, rfl, rfl, rfl, rfl⟩
  · intro q data p
    refine ⟨by simp [addPriorityJob], ?_, ?_⟩
    · unfold addPriorityJob
      exact List.take_left q _
    · exact ⟨⟨"analyze-pull-request", data, ⟨some (priorityMap p),
        getAttemptsForPriority p, "exponential", 2000, some 100, some 50⟩⟩,
        List.getLast?_concat _, rfl, rfl, rfl⟩

/-- C10: `analyzeCode` never throws — for an empty or whitespace-only diff it
returns the fixed no-changes result independent of the AI outcome (no AI
call is needed), and whenever the AI analysis throws it returns the degraded
result whose issues are exactly the heuristic analysis of the diff, the
fixed degraded summary, and empty positives. -/
theorem analyzeCode_never_throws :
    (∀ (diff : String) (ai : Except String AIAnalysis),
      (jsTrim diff).length = 0 → analyzeCode ai diff = noChangesResult) ∧
    (∀ (diff e : String), ¬ (jsTrim diff).length = 0 →
      analyzeCode (.error e) diff =
        { summary := degradedSummary
          issues := performHeuristicAnalysis diff
          positives := [] }) := by
  constructor
  · intro diff ai h
    unfold analyzeCode
    rw [if_pos h]
  · intro diff e h
    unfold analyzeCode
    rw [if_neg h]

/-- Witness for C10: a whitespace-only diff short-circuits even with a
successful AI outcome, and an AI failure on `+eval (x)` yields exactly the
heuristic security issue with the degraded summary. -/
theorem analyzeCode_never_throws_witness :
    analyzeCode (.ok ⟨some "s", some [], some []⟩) "  \n " = noChangesResult ∧
    analyzeCode (.error "OpenAI API error") "+eval (x)" =
      { summary := degradedSummary
        issues := [{ type := "security", severity := "high"
                     message := "Potential security risk detected"
                     line := some "1"
                     suggestion := "Review for security implications and add proper validation" }]
        positives := [] } := by
  constructor
  · exact analyzeCode_never_throws.1 "  \n " _ (by decide)
  · have h := analyzeCode_never_throws.2 "+eval (x)" "OpenAI API error"
      (by decide)
    rw [h]
    decide


/-- C9 counterexample: the basic `CodeReviewProcessor` marks the review
failed and re-throws a diff-fetch failure, but records no error metric at
all (it has no metrics service) — refuting the claim that every pipeline
exception is accompanied by an error metric. -/
theorem handleCodeReview_no_error_metric_counterexample :
    (handleCodeReview ⟨.error "boom", .ok ⟨none, none, none⟩, .ok (), .ok ()⟩
      ⟨"acme", "api", 7, "h1", "b0"⟩ ⟨[], [], [], []⟩).1 = .error "boom" ∧
    reviewStatus (handleCodeReview ⟨.error "boom", .ok ⟨none, none, none⟩,
      .ok (), .ok ()⟩ ⟨"acme", "api", 7, "h1", "b0"⟩ ⟨[], [], [], []⟩).2 0
      = some "failed" ∧
    (handleCodeReview ⟨.error "boom", .ok ⟨none, none, none⟩, .ok (), .ok ()⟩
      ⟨"acme", "api", 7, "h1", "b0"⟩ ⟨[], [], [], []⟩).2.metrics = [] :=
  ⟨rfl, rfl, rfl⟩

/-- C9 (amended): on any pipeline exception the basic processor marks the
owning review record `failed` and re-throws the same exception (never
swallowing it); the enhanced processor records an error metric and re-throws
the same exception (it keeps no review record). No single processor does
both. -/
theorem processor_failure_bookkeeping :
    (∀ (env : PipelineEnv) (job : JobData) (s0 : ProcessorState)
        (e : String) (s1 : ProcessorState),
      handleCodeReview env job s0 = (.error e, s1) →
        reviewStatus s1 s0.reviews.length = some "failed") ∧
    (∀ (env : PipelineEnv) (job : JobData) (s0 : ProcessorState) (e : String),
      env.diffResult = .error e → (handleCodeReview env job s0).1 = .error e) ∧
    (∀ (now : Nat) (job : JobData) (procRes : Except String JobOutcome)
        (s0 : EnhancedState) (e : String) (s1 : EnhancedState),
      enhancedHandleCodeReview now job procRes s0 = (.error e, s1) →
        s1.metrics.getLast? = some "error") ∧
    (∀ (now : Nat) (job : JobData) (s0 : EnhancedState) (e : String),
      (checkRateLimit s0.rates now ("github:" ++ job.owner) 100 3600).1
        = true →
      lockExists s0.locks now
        ("lock:" ++ ("pr:" ++ (job.owner ++ "/" ++ job.repo) ++ ":" ++
          toString job.pullNumber)) = false →
      (enhancedHandleCodeReview now job (.error e) s0).1 = .error e) := by
  refine ⟨?_, ?_, ?_, ?_⟩
  · intro env job s0 e s1 h
    unfold handleCodeReview at h
    rcases hcre : createReview s0 job.owner job.repo job.pullNumber job.headSha
      "Processing..." with ⟨review, sA⟩
    rw [hcre] at h
    replace h : (match handleCodeReviewTry env review.id
        (updateReviewStatus sA review.id "in_progress") with
      | (.ok _, s') => ((.ok () : Except String Unit), s')
      | (.error e, s') => (.error e, updateReviewStatus s' review.id "failed"))
        = (.error e, s1) := h
    have hrid : review.id = s0.reviews.length := by
      have h1 : review = (createReview s0 job.owner job.repo job.pullNumber
          job.headSha "Processing...").1 := by rw [hcre]
      rw [h1]
      rfl
    have hmemA : ∃ x ∈ (updateReviewStatus sA review.id "in_progress").reviews,
        x.id = s0.reviews.length := by
      apply exists_id_updateReviewStatus
      have h2 : sA = (createReview s0 job.owner job.repo job.pullNumber
          job.headSha "Processing...").2 := by rw [hcre]
      rw [h2]
      refine ⟨(createReview s0 job.owner job.repo job.pullNumber job.headSha
        "Processing...").1, ?_, rfl⟩
      unfold createReview
      simp
    rcases htry : handleCodeReviewTry env review.id
      (updateReviewStatus sA review.id "in_progress") with ⟨res, sB⟩
    rw [htry] at h
    cases res with
    | ok u =>
      replace h : ((Except.ok () : Except String Unit), sB) = (.error e, s1) := h
      simp at h
    | error eX =>
      replace h : ((Except.error eX : Except String Unit),
        updateReviewStatus sB review.id "failed") = (.error e, s1) := h
      obtain ⟨-, hs⟩ := (Prod.mk.injEq _ _ _ _).mp h
      rw [← hs, ← hrid]
      apply reviewStatus_update_of_mem
      rw [hrid]
      exact handleCodeReviewTry_preserves_id env review.id _ _ _ _ hmemA htry
  · intro env job s0 e h
    unfold handleCodeReview handleCodeReviewTry
    rw [h]
  · intro now job procRes s0 e s1 h
    rcases hcr : checkRateLimit s0.rates now ("github:" ++ job.owner) 100 3600
      with ⟨b, rates1⟩
    unfold enhancedHandleCodeReview at h
    rw [hcr] at h
    cases b
    · simp only [Bool.not_false, if_true] at h
      obtain ⟨-, hs⟩ := (Prod.mk.injEq _ _ _ _).mp h
      rw [← hs]
      simp
    · rcases hacq : acquireLock s0.locks now
        ("pr:" ++ (job.owner ++ "/" ++ job.repo) ++ ":" ++
          toString job.pullNumber) 300000 with ⟨c, locks1⟩
      simp only [hacq, Bool.not_true, Bool.false_eq_true, if_false] at h
      cases c
      · simp only [Bool.not_false, if_true] at h
        simp at h
      · simp only [Bool.not_true, Bool.false_eq_true, if_false] at h
        cases procRes with
        | ok r => simp at h
        | error eX =>
          obtain ⟨-, hs⟩ := (Prod.mk.injEq _ _ _ _).mp h
          rw [← hs]
          simp
  · intro now job s0 e hrate hlock
    rcases hcr : checkRateLimit s0.rates now ("github:" ++ job.owner) 100 3600
      with ⟨b, rates1⟩
    rw [hcr] at hrate
    simp only at hrate
    subst hrate
    have hacq : acquireLock s0.locks now
        ("pr:" ++ (job.owner ++ "/" ++ job.repo) ++ ":" ++
          toString job.pullNumber) 300000 =
        (true, alSet s0.locks
          ("lock:" ++ ("pr:" ++ (job.owner ++ "/" ++ job.repo) ++ ":" ++
            toString job.pullNumber)) (now + 300000)) := by
      simp [acquireLock, hlock]
    unfold enhancedHandleCodeReview
    rw [hcr]
    simp only [hacq, Bool.not_true, Bool.false_eq_true, if_false]

/-- Witness for C9 (amended): a failing diff fetch leaves the review
`failed` in the basic processor; a failing pipeline in the enhanced
processor re-throws the same error. -/
theorem processor_failure_bookkeeping_witness :
    reviewStatus (handleCodeReview ⟨.error "kaput", .ok ⟨none, none, none⟩,
      .ok (), .ok ()⟩ ⟨"acme", "api", 7, "h1", "b0"⟩ ⟨[], [], [], []⟩).2 0
      = some "failed" ∧
    (enhancedHandleCodeReview 3 ⟨"acme", "api", 7, "h1", "b0"⟩
      (.error "kaput") ⟨[], [], []⟩).1 = .error "kaput" := by
  constructor
  · exact processor_failure_bookkeeping.1
      ⟨.error "kaput", .ok ⟨none, none, none⟩, .ok (), .ok ()⟩
      ⟨"acme", "api", 7, "h1", "b0"⟩ ⟨[], [], [], []⟩ "kaput" _ rfl
  · exact processor_failure_bookkeeping.2.2.2 3 ⟨"acme", "api", 7, "h1", "b0"⟩
      ⟨[], [], []⟩ "kaput" (by decide) (by decide)

end Lintelligence
